import Mathlib

/-!
Formal model of the Chicken Hop runtime core (`src/game.js`).

The game is a single-file fixed-step 2D platformer. This development gives a
shallow embedding of the parts of its `update` loop and helpers that the
verified properties talk about: the damage routine `hurt`, the obstacle
spawner's spacing rules, the collision passes (platform landing, obstacle
landing, front damage, pickup and egg collection), the flight-fuel logic,
drop-through, and `normalizeName`. JS numbers are modelled as rationals
(`ℚ`), JS arrays as lists, and every `Math.random()` draw is threaded as an
explicit input so that each code path is a total function of its inputs.
Rendering, audio and DOM side effects (particle bursts, `Sfx.*`,
`setHeartFill`, overlay updates) are omitted: they read gameplay state but
never write it.
-/

namespace ChickenHop

/-- Game mode (`state.mode`): title, playing, paused or gameover. -/
inductive Mode
  | title
  | playing
  | paused
  | gameover
deriving DecidableEq, Repr

/-- `clamp(v, a, b) = Math.max(a, Math.min(b, v))` from game.js line 28. -/
def clamp (v a b : ℚ) : ℚ := max a (min b v)

/-- `lerp(a, b, t) = a + (b - a) * t` from game.js line 29. -/
def lerp (a b t : ℚ) : ℚ := a + (b - a) * t

/-- Axis-aligned bounding-box overlap test `aabb` from game.js line 48. -/
def aabb (ax ay aw ah bx bY bw bh : ℚ) : Bool :=
  decide (ax < bx + bw) && decide (ax + aw > bx) &&
  decide (ay < bY + bh) && decide (ay + ah > bY)

/-- A rectangle, used for the player's inner hitbox and entity boxes. -/
structure Rect where
  x : ℚ
  y : ℚ
  w : ℚ
  h : ℚ
deriving DecidableEq, Repr

/-- `aabb` applied to two rectangles. -/
def aabbR (a b : Rect) : Bool := aabb a.x a.y a.w a.h b.x b.y b.w b.h

/-- An obstacle (game.js `spawnObstacle`, lines 556-566): position and size.
The cosmetic `kind`, `color` and `bob` fields drive rendering only and are
omitted; an `id` models JS reference identity (the source compares obstacle
references with `===`). -/
structure Obstacle where
  id : ℕ
  x : ℚ
  y : ℚ
  w : ℚ
  h : ℚ
deriving DecidableEq, Repr

/-- A one-way platform (game.js `spawnPlatform`, lines 525-535); cosmetic
`kind`/`bob` omitted, `id` models reference identity. -/
structure Platform where
  id : ℕ
  x : ℚ
  y : ℚ
  w : ℚ
  h : ℚ
deriving DecidableEq, Repr

/-- The player's `ground` reference: in game.js `player.ground` is `null`, a
platform object, or an obstacle object (obstacle-top landing stores the
obstacle there). Identity is by `id`. -/
inductive Ground
  | plat (id : ℕ)
  | obs (id : ℕ)
deriving DecidableEq, Repr

/-- A corn pickup (game.js `spawnCorn` / `spawnBigCorn`, lines 568-594):
position, radius, taken flag and value (1 for corn, 3 for giant corn).
The cosmetic `t` bob timer and `kind` tag are omitted. -/
structure Pickup where
  x : ℚ
  y : ℚ
  r : ℚ
  taken : Bool
  value : ℕ
deriving DecidableEq, Repr

/-- An egg hazard (game.js `spawnEgg`, lines 596-606). -/
structure Egg where
  x : ℚ
  y : ℚ
  r : ℚ
  smashed : Bool
  smashT : ℚ
deriving DecidableEq, Repr

/-- The player record (game.js lines 334-350), restricted to the fields the
simulation core reads or writes (`anim` and `cluckCd` drive sound/render
pacing and are kept for completeness of the update fragments that touch
them; here they are omitted since no modelled fragment needs them). -/
structure Player where
  x : ℚ
  y : ℚ
  vx : ℚ
  vy : ℚ
  w : ℚ
  h : ℚ
  onGround : Bool
  jumpBuffered : ℚ
  coyote : ℚ
  invuln : ℚ
  ground : Option Ground
  drop : ℚ
  flyHold : ℚ
deriving DecidableEq, Repr

/-- World constants and per-frame bounds (game.js lines 352-364); the hue
fields are cosmetic and omitted. -/
structure World where
  floorY : ℚ
  leftBound : ℚ
  rightBound : ℚ
  gravity : ℚ
  jumpVel : ℚ
  plateauLift : ℚ
deriving DecidableEq, Repr

/-- The run state (game.js `state`, lines 208-232), restricted to simulation
fields; `name`/`design`/`color`, `timeMode`, `t`, `dt` and `hintBlink` do not
interact with the claims' logic. -/
structure GameState where
  mode : Mode
  speed : ℚ
  difficulty : ℚ
  score : ℚ
  best : ℚ
  corn : ℤ
  heartsMax : ℕ
  heartIndex : ℕ
  hearts : List ℚ
  heartsSmooth : List ℚ
  shake : ℚ
  flyFuelMax : ℚ
  flyFuel : ℚ
  flyRefuelDelay : ℚ
  flyRefuelCd : ℚ
deriving DecidableEq, Repr

/-- Read a heart value: JS `state.hearts[i]` (out-of-range reads occur in
no reachable code path; 0 is the modelled default). -/
def lget (l : List ℚ) (i : ℕ) : ℚ := l.getD i 0

/-- The initial `state` object literal (game.js lines 208-232), simulation
fields only. -/
def initState : GameState where
  mode := Mode.title
  speed := 360
  difficulty := 0
  score := 0
  best := 0
  corn := 0
  heartsMax := 2
  heartIndex := 0
  hearts := [100, 100]
  heartsSmooth := [100, 100]
  shake := 0
  flyFuelMax := 5
  flyFuel := 5
  flyRefuelDelay := 3/4
  flyRefuelCd := 0

/-- `resetRun`'s effect on the simulation fields of `state` (game.js lines
403-417): scores, hearts, shake and fuel are reset; `mode`, `best` and
`heartsMax` are untouched. -/
def resetRunState (st : GameState) : GameState :=
  { st with
    speed := 360
    difficulty := 0
    score := 0
    corn := 0
    heartIndex := 0
    hearts := (st.hearts.set 0 100).set 1 100
    heartsSmooth := (st.heartsSmooth.set 0 100).set 1 100
    shake := 0
    flyFuel := st.flyFuelMax
    flyRefuelCd := 0 }

/-- `gameOver` (game.js lines 496-502): switch to gameover and fold the
floored score into the best score. Overlay and sound calls are display-only. -/
def gameOverStep (st : GameState) : GameState :=
  { st with
    mode := Mode.gameover
    best := max st.best ((⌊st.score⌋ : ℤ) : ℚ) }

/-- `hurt(obstacle, amount)` (game.js lines 451-485). No-op unless playing
and vulnerable; otherwise: clamp-subtract damage from the active heart, start
a 1.0s invulnerability window, knock the player back away from the obstacle's
horizontal center, reposition it just outside the obstacle on the knockback
side re-clamped to the lane, and, if the heart was emptied, either advance to
the next full heart (longer 1.2s grace) or end the run. `featherBurst` and
`Sfx.ouch` are cosmetic. -/
def hurt (w : World) (st : GameState) (p : Player) (o : Obstacle) (amount : ℚ) :
    GameState × Player :=
  if st.mode ≠ Mode.playing then (st, p)
  else if p.invuln > 0 then (st, p)
  else
    let obstacleCenterX := o.x + o.w * (1/2)
    let hearts1 := st.hearts.set st.heartIndex (max 0 (lget st.hearts st.heartIndex - amount))
    let st1 := { st with hearts := hearts1, shake := max st.shake (1/10) }
    let pMid := p.x + p.w * (1/2)
    let dir : ℚ := if pMid < obstacleCenterX then -1 else 1
    let px := if dir < 0 then o.x - p.w - 10 else o.x + o.w + 10
    let p1 := { p with
      invuln := 1
      vx := 320 * dir
      vy := min p.vy (-380)
      onGround := false
      x := clamp px w.leftBound w.rightBound }
    if lget hearts1 st.heartIndex ≤ 0 then
      if st.heartIndex < st.heartsMax - 1 then
        ({ st1 with
            hearts := (hearts1.set st.heartIndex 0).set (st.heartIndex + 1) 100
            heartsSmooth := st.heartsSmooth.set (st.heartIndex + 1) 100
            heartIndex := st.heartIndex + 1
            shake := 18/100 },
         { p1 with invuln := 12/10 })
      else
        (gameOverStep st1, p1)
    else (st1, p1)

/-! ## Obstacle spawner (game.js lines 779-853)

The spawner runs a bounded catch-up loop (`while (spawner.cd <= 0 && iters++ < 6)`);
`spawnIter` models one pass through the loop body, with every `Math.random()`
draw supplied in a `SpawnRand` record. The corn/big-corn placement after a
chunk (lines 841-843) writes only to the pickup pool and is omitted here;
obstacle kind/color draws are folded into the supplied widths and heights. -/

/-- Spawner cadence state (game.js line 373): countdown, chunks left in the
current run, and the landing-gap-owed flag. -/
structure Spawner where
  cd : ℚ
  runChunksLeft : ℕ
  needLanding : Bool
deriving DecidableEq, Repr

/-- The random draws consumed by one pass of the spawner loop body:
`startRun` for `Math.random() < lerp(0.50, 0.72, d)`, `runChunks` for
`randi(1, 2 + (d > 0.55 ? 1 : 0))`, `chunkTwo` for
`Math.random() < lerp(0.30, 0.55, d)`, `x1Jitter` for `rand(40, 140)`,
`pairGap` for `rand(40, 80)`, the obstacle sizes from `pick`/`makeWH`, and
the cadence increments `rand(0.55, 1.25)` / `rand(0.70, 1.40)` (idle),
`rand(0.20, 0.40)` (mid-run) and `rand(0.55, 1.10)` (run end). -/
structure SpawnRand where
  startRun : Bool
  runChunks : ℕ
  chunkTwo : Bool
  x1Jitter : ℚ
  pairGap : ℚ
  ow1 : ℚ
  oh1 : ℚ
  ow2 : ℚ
  oh2 : ℚ
  cdIdle : ℚ
  idleExtra : Bool
  cdIdleExtra : ℚ
  cdMid : ℚ
  cdEnd : ℚ
deriving DecidableEq, Repr

/-- `const minSpacingPx = lerp(240, 180, state.difficulty)` (game.js line 806). -/
def minSpacingPx (d : ℚ) : ℚ := lerp 240 180 d

/-- `const airTime = (2 * Math.abs(world.jumpVel)) / world.gravity` (line 809). -/
def airTime (w : World) : ℚ := 2 * |w.jumpVel| / w.gravity

/-- `const jumpTravelPx = state.speed * airTime` (game.js line 810). -/
def jumpTravelPx (w : World) (speed : ℚ) : ℚ := speed * airTime w

/-- `const reactionPx = lerp(220, 140, state.difficulty)` (game.js line 811). -/
def reactionPx (d : ℚ) : ℚ := lerp 220 140 d

/-- `const landingSpacingPx = Math.max(player.w + 200, jumpTravelPx + reactionPx)`
(game.js line 812). -/
def landingSpacingPx (w : World) (playerW d speed : ℚ) : ℚ :=
  max (playerW + 200) (jumpTravelPx w speed + reactionPx d)

/-- One pass through the spawner loop body (game.js lines 786-853), given the
current difficulty and speed, the player's width, the canvas width, the right
end of the last live obstacle (`lastObs.x + lastObs.w`, `none` when the pool
is empty), a fresh id for new obstacles, the cadence state and the random
draws. Returns the updated cadence state and the obstacles spawned (in order). -/
def spawnIter (w : World) (d speed playerW canvasW : ℚ) (lastEndX : Option ℚ)
    (nid : ℕ) (s : Spawner) (r : SpawnRand) : Spawner × List Obstacle :=
  let speedFactor := lerp 1 (86/100) d
  if s.runChunksLeft = 0 ∧ r.startRun = false then
    ({ s with
        needLanding := false
        cd := s.cd + r.cdIdle * speedFactor +
          (if r.idleExtra then r.cdIdleExtra * speedFactor else 0) }, [])
  else
    let s1 := if s.runChunksLeft = 0
      then { s with runChunksLeft := r.runChunks, needLanding := false }
      else s
    let chunkSize : ℕ := if d < 1/10 then 1 else if r.chunkTwo then 2 else 1
    let reqPx := if s1.needLanding then landingSpacingPx w playerW d speed
      else minSpacingPx d
    let x1base := canvasW + r.x1Jitter
    let x1 := match lastEndX with
      | none => x1base
      | some lastEnd => max x1base (lastEnd + reqPx)
    let o1 : Obstacle := { id := nid, x := x1, y := w.floorY - r.oh1, w := r.ow1, h := r.oh1 }
    let os := if chunkSize = 2 then
        let x2 := x1 + r.ow1 + r.pairGap
        [o1, { id := nid + 1, x := x2, y := w.floorY - r.oh2, w := r.ow2, h := r.oh2 }]
      else [o1]
    let left1 := s1.runChunksLeft - 1
    if 0 < left1 then
      ({ cd := s1.cd + r.cdMid * speedFactor, runChunksLeft := left1, needLanding := true }, os)
    else
      ({ cd := s1.cd + r.cdEnd * speedFactor, runChunksLeft := left1, needLanding := false }, os)

/-! ## Player-update fragments -/

/-- Drop-through input handling (game.js lines 750-756): the timer decays,
then holding down while grounded with a non-null `ground` reference releases
grounding, clears the reference, arms the 0.35s drop timer and nudges the
player downward. -/
def dropStep (dt : ℚ) (down : Bool) (p : Player) : Player :=
  let p0 := { p with drop := max 0 (p.drop - dt) }
  if down ∧ p0.onGround = true ∧ p0.ground.isSome then
    { p0 with drop := 35/100, ground := none, onGround := false, vy := max p0.vy 120 }
  else p0

/-- `isFlying` (game.js line 727): jump held, airborne, fly-hold past 0.14s,
fuel left. -/
def isFlying (jump : Bool) (st : GameState) (p : Player) : Bool :=
  jump && !p.onGround && decide (p.flyHold > 14/100) && decide (st.flyFuel > 0)

/-- The fuel and cooldown effects of a flying tick (game.js lines 728-731):
fuel drains by `dt` floored at 0 and the refuel cooldown is re-armed. The
upward velocity easing on line 733 uses the transcendental
`Math.pow(0.001, dt)` and affects only `player.vy`, which no modelled claim
reads; it is left out of this fragment. -/
def flightFuelStep (dt : ℚ) (jump : Bool) (st : GameState) (p : Player) : GameState :=
  if isFlying jump st p then
    { st with flyFuel := max 0 (st.flyFuel - dt), flyRefuelCd := st.flyRefuelDelay }
  else st

/-- Fly-hold timer update (game.js lines 714-715): accumulate while jump is
held, reset to 0 otherwise. -/
def flyHoldStep (dt : ℚ) (jump : Bool) (p : Player) : Player :=
  if jump then { p with flyHold := p.flyHold + dt } else { p with flyHold := 0 }

/-- Flight refuel (game.js lines 1044-1050): only while fuel is below max and
the player is grounded does the cooldown tick down, and when it reaches 0 the
fuel snaps back to max. -/
def refuelStep (dt : ℚ) (st : GameState) (p : Player) : GameState :=
  if st.flyFuel < st.flyFuelMax then
    if p.onGround then
      let cd1 := max 0 (st.flyRefuelCd - dt)
      if cd1 ≤ 0 then { st with flyRefuelCd := cd1, flyFuel := st.flyFuelMax }
      else { st with flyRefuelCd := cd1 }
    else st
  else st

/-! ## Collision passes (game.js lines 971-1104) -/

/-- The landing test body shared by the platform pass (game.js lines 990-1003):
the swept bottom edge must cross the top surface between `prevY` and the
current position, with horizontal overlap inset by 6px. -/
def landsOn (prevBottom bottom px pw : ℚ) (ex ey ew : ℚ) : Bool :=
  !(decide (bottom < ey) || decide (prevBottom > ey)) &&
  (decide (px + pw - 6 > ex) && decide (px + 6 < ex + ew)) &&
  (decide (prevBottom ≤ ey) && decide (bottom ≥ ey))

/-- Platform landing pass (game.js lines 986-1005): only while falling and not
drop-through-suppressed; the first platform whose top the swept bottom edge
crossed wins, pinning the player and recording the support reference. Returns
the updated player and the `landed` flag. The `dustPuff` on first contact is
cosmetic. -/
def platformLandingPass (prevY : ℚ) (plats : List Platform) (p : Player) :
    Player × Bool :=
  if p.vy ≥ 0 ∧ p.drop ≤ 0 then
    let prevBottom := prevY + p.h
    let bottom := p.y + p.h
    match plats.find? (fun pl => landsOn prevBottom bottom p.x p.w pl.x pl.y pl.w) with
    | none => (p, false)
    | some pl =>
        ({ p with y := pl.y - p.h, vy := 0, onGround := true, ground := some (Ground.plat pl.id) },
         true)
  else (p, false)

/-- Obstacle-top landing pass (game.js lines 1008-1025): attempted only when
no platform landing occurred (`!landed`), same swept test, no drop-timer
guard; stores the obstacle as the support reference. -/
def obstacleLandingPass (prevY : ℚ) (obs : List Obstacle) (p : Player) :
    Player × Bool :=
  if p.vy ≥ 0 then
    let prevBottom := prevY + p.h
    let bottom := p.y + p.h
    match obs.find? (fun o => landsOn prevBottom bottom p.x p.w o.x o.y o.w) with
    | none => (p, false)
    | some o =>
        ({ p with y := o.y - p.h, vy := 0, onGround := true, ground := some (Ground.obs o.id) },
         true)
  else (p, false)

/-- The player's reduced inner hitbox (game.js lines 1057-1062). -/
def hitbox (p : Player) : Rect :=
  { x := p.x + 8, y := p.y + 8, w := p.w - 16, h := p.h - 10 }

/-- The per-obstacle damage test (game.js lines 1064-1073): inner hitbox
overlap, not currently supported by this very obstacle, bottom of the hitbox
below the obstacle's top (4px tolerance), and front-on (player center at or
left of the obstacle center). -/
def hitQualifies (p : Player) (o : Obstacle) : Bool :=
  let hb := hitbox p
  aabbR hb { x := o.x, y := o.y, w := o.w, h := o.h } &&
  !(p.ground == some (Ground.obs o.id) && p.onGround) &&
  !(decide (hb.y + hb.h ≤ o.y + 4)) &&
  decide (p.x + p.w * (1/2) ≤ o.x + o.w * (1/2))

/-- Obstacle front-damage pass (game.js lines 1064-1074): scan the pool in
order, call `hurt` on the first qualifying obstacle and stop (`break`). -/
def damagePass (w : World) (st : GameState) (p : Player) (obs : List Obstacle) :
    GameState × Player :=
  match obs.find? (fun o => hitQualifies p o) with
  | none => (st, p)
  | some o => hurt w st p o 12

/-- `p.value || 1`: the pickup's value with JS falsy-0 defaulting to 1. -/
def collectValue (v : ℕ) : ℕ := if v = 0 then 1 else v

/-- The bounding square of a pickup's circular footprint (game.js lines
1078-1081). -/
def pickupBox (p : Pickup) : Rect :=
  { x := p.x - p.r, y := p.y - p.r, w := p.r * 2, h := p.r * 2 }

/-- Whether a pickup is collected this tick: untaken and overlapping the
inner hitbox (game.js lines 1077-1082). -/
def pickupHit (hb : Rect) (p : Pickup) : Bool := !p.taken && aabbR hb (pickupBox p)

/-- Collection of a single pickup (game.js lines 1083-1088): mark taken, add
the value to corn and 60x the value to score (`Sfx.corn`/`featherBurst` are
cosmetic). -/
def pickupStep (hb : Rect) (st : GameState) (p : Pickup) : GameState × Pickup :=
  if pickupHit hb p then
    ({ st with
        corn := st.corn + (collectValue p.value : ℤ)
        score := st.score + 60 * (collectValue p.value : ℚ) },
     { p with taken := true })
  else (st, p)

/-- Pickup collection pass (game.js lines 1076-1089): every untaken
overlapping pickup collects in the same tick (no early exit). -/
def pickupPass (hb : Rect) : GameState → List Pickup → GameState × List Pickup
  | st, [] => (st, [])
  | st, p :: rest =>
      let sp := pickupStep hb st p
      let srest := pickupPass hb sp.1 rest
      (srest.1, sp.2 :: srest.2)

/-- The bounding square of an egg (game.js lines 1093-1096). -/
def eggBox (e : Egg) : Rect :=
  { x := e.x - e.r, y := e.y - e.r, w := e.r * 2, h := e.r * 2 }

/-- Smashing of a single egg (game.js lines 1097-1103): mark smashed, reset
its fade timer, and decrement corn floored at 0. -/
def eggStep (hb : Rect) (st : GameState) (e : Egg) : GameState × Egg :=
  if !e.smashed && aabbR hb (eggBox e) then
    ({ st with corn := max 0 (st.corn - 1) }, { e with smashed := true, smashT := 0 })
  else (st, e)

/-- Egg hazard pass (game.js lines 1091-1104): every un-smashed overlapping
egg smashes in the same tick. -/
def eggPass (hb : Rect) : GameState → List Egg → GameState × List Egg
  | st, [] => (st, [])
  | st, e :: rest =>
      let se := eggStep hb st e
      let srest := eggPass hb se.1 rest
      (srest.1, se.2 :: srest.2)

/-! ## Name normalisation (game.js lines 250-254) -/

/-- JS regex `\s` whitespace class, restricted to the code points that occur
in practice: space, tab, LF, CR, VT, FF and NBSP. -/
def isJsWs (c : Char) : Bool :=
  c == ' ' || c == '\t' || c == '\n' || c == '\r' ||
  c == Char.ofNat 11 || c == Char.ofNat 12 || c == Char.ofNat 160

/-- `String(v).replace(/\s+/g, ' ')` on a character list: each maximal run of
whitespace becomes a single space. `prevWs` records whether the previous
character was part of a whitespace run. -/
def collapseWsAux (prevWs : Bool) : List Char → List Char
  | [] => []
  | c :: rest =>
      if isJsWs c then
        (if prevWs then [] else [' ']) ++ collapseWsAux true rest
      else c :: collapseWsAux false rest

/-- `replace(/\s+/g, ' ')` from `normalizeName` (game.js line 251). -/
def collapseWs (l : List Char) : List Char := collapseWsAux false l

/-- JS `String.prototype.trim`: strip leading and trailing whitespace. -/
def jsTrim (l : List Char) : List Char :=
  ((l.dropWhile isJsWs).reverse.dropWhile isJsWs).reverse

/-- `normalizeName` (game.js lines 250-254): collapse whitespace runs, trim,
truncate to 14 characters, and fall back to `Nugget` when empty. The
`String(v ?? '')` coercion is modelled by taking the input already as a
character list. -/
def normalizeName (v : List Char) : List Char :=
  let s := jsTrim (collapseWs v)
  let cut := s.take 14
  if cut.isEmpty then "Nugget".toList else cut

/-! ## Helper lemmas about heart-list access -/

theorem lget_set_self (l : List ℚ) (i : ℕ) (v : ℚ) (h : i < l.length) :
    lget (l.set i v) i = v := by
  unfold lget
  rw [List.getD_eq_getElem _ 0 (by simpa using h)]
  exact List.getElem_set_self _

theorem lget_set_ne : ∀ (l : List ℚ) (i j : ℕ) (v : ℚ), i ≠ j →
    lget (l.set i v) j = lget l j
  | [], _, _, _, _ => rfl
  | _ :: _, 0, 0, _, h => absurd rfl h
  | _ :: _, 0, _ + 1, _, _ => rfl
  | _ :: _, _ + 1, 0, _, _ => rfl
  | _ :: l, i + 1, j + 1, v, h =>
      lget_set_ne l i j v (fun e => h (by rw [e]))

theorem lget_bounds (l : List ℚ) (hl : ∀ x ∈ l, 0 ≤ x ∧ x ≤ 100) (i : ℕ) :
    0 ≤ lget l i ∧ lget l i ≤ 100 := by
  unfold lget
  by_cases hi : i < l.length
  · rw [List.getD_eq_getElem _ _ hi]
    exact hl _ (List.getElem_mem hi)
  · rw [List.getD_eq_default _ _ (le_of_not_lt hi)]
    norm_num

theorem set_set_pair : ∀ (l : List ℚ), l.length = 2 →
    (l.set 0 100).set 1 100 = [100, 100]
  | [_, _], _ => rfl
  | [], h => by simp at h
  | [_], h => by simp at h
  | _ :: _ :: _ :: _, h => by simp at h

/-! ## State invariant (spec section 3, RunState) -/

/-- The run-state invariant: every heart's health in [0,100], corn
non-negative, the active heart index in range, and the hearts array of the
fixed `heartsMax` size. -/
def Inv (st : GameState) : Prop :=
  (∀ x ∈ st.hearts, 0 ≤ x ∧ x ≤ 100) ∧ 0 ≤ st.corn ∧
  st.heartIndex < st.heartsMax ∧ st.hearts.length = st.heartsMax

theorem inv_gameOverStep (st : GameState) (h : Inv st) : Inv (gameOverStep st) := h

theorem hurt_inv (w : World) (st : GameState) (p : Player) (o : Obstacle) (amount : ℚ)
    (hInv : Inv st) (ham : 0 ≤ amount) : Inv (hurt w st p o amount).1 := by
  obtain ⟨hbd, hc, hix, hlen⟩ := hInv
  have hmem1 : ∀ x ∈ st.hearts.set st.heartIndex
      (max 0 (lget st.hearts st.heartIndex - amount)), 0 ≤ x ∧ x ≤ 100 := by
    intro x hx
    rcases List.mem_or_eq_of_mem_set hx with hx | rfl
    · exact hbd x hx
    · refine ⟨le_max_left 0 _, max_le (by norm_num) ?_⟩
      have := (lget_bounds st.hearts hbd st.heartIndex).2
      linarith
  unfold hurt
  by_cases h1 : st.mode ≠ Mode.playing
  · rw [if_pos h1]
    exact ⟨hbd, hc, hix, hlen⟩
  rw [if_neg h1]
  by_cases h2 : p.invuln > 0
  · rw [if_pos h2]
    exact ⟨hbd, hc, hix, hlen⟩
  rw [if_neg h2]
  simp only
  split
  · split
    · rename_i hzero hadv
      refine ⟨?_, hc, ?_, ?_⟩
      · intro x hx
        rcases List.mem_or_eq_of_mem_set hx with hx | rfl
        · rcases List.mem_or_eq_of_mem_set hx with hx | rfl
          · exact hmem1 x hx
          · norm_num
        · norm_num
      · simpa using (by omega : st.heartIndex + 1 < st.heartsMax)
      · simpa using hlen
    · exact inv_gameOverStep _ ⟨hmem1, hc, hix, by simpa using hlen⟩
  · exact ⟨hmem1, hc, hix, by simpa using hlen⟩

/-! ## Pickup and egg pass bookkeeping -/

/-- The total corn value collected by a pass of the pickup loop: the sum of
`p.value || 1` over the untaken overlapping pickups. -/
def collectedValue (hb : Rect) (ps : List Pickup) : ℕ :=
  (ps.map (fun p => if pickupHit hb p then collectValue p.value else 0)).sum

theorem pickupPass_fst (hb : Rect) : ∀ (st : GameState) (ps : List Pickup),
    (pickupPass hb st ps).1 =
      { st with
        corn := st.corn + (collectedValue hb ps : ℤ)
        score := st.score + 60 * (collectedValue hb ps : ℚ) }
  | st, [] => by simp [pickupPass, collectedValue]
  | st, p :: rest => by
      have ih := pickupPass_fst hb (pickupStep hb st p).1 rest
      simp only [pickupPass, ih]
      unfold pickupStep
      simp only [collectedValue, List.map_cons, List.sum_cons]
      split <;>
      · simp only [GameState.mk.injEq, and_true, true_and, eq_self_iff_true]
        constructor <;> (push_cast; ring)

theorem pickupPass_taken (hb : Rect) : ∀ (st : GameState) (ps : List Pickup),
    (pickupPass hb st ps).2 =
      ps.map (fun p => if pickupHit hb p then { p with taken := true } else p)
  | _, [] => by simp [pickupPass]
  | st, p :: rest => by
      have ih := pickupPass_taken hb (pickupStep hb st p).1 rest
      simp only [pickupPass, List.map_cons, ih, List.cons.injEq, and_true,
        eq_self_iff_true]
      unfold pickupStep
      split <;> simp_all

theorem eggStep_proj (hb : Rect) (st : GameState) (e : Egg) :
    (eggStep hb st e).1.mode = st.mode ∧ (eggStep hb st e).1.hearts = st.hearts ∧
    (eggStep hb st e).1.heartIndex = st.heartIndex ∧
    (eggStep hb st e).1.heartsMax = st.heartsMax ∧
    (0 ≤ st.corn → 0 ≤ (eggStep hb st e).1.corn) := by
  unfold eggStep
  split
  · exact ⟨rfl, rfl, rfl, rfl, fun _ => le_max_left 0 _⟩
  · exact ⟨rfl, rfl, rfl, rfl, fun h => h⟩

theorem eggPass_proj (hb : Rect) : ∀ (st : GameState) (es : List Egg),
    ((eggPass hb st es).1.mode = st.mode ∧
     (eggPass hb st es).1.hearts = st.hearts ∧
     (eggPass hb st es).1.heartIndex = st.heartIndex ∧
     (eggPass hb st es).1.heartsMax = st.heartsMax) ∧
    (0 ≤ st.corn → 0 ≤ (eggPass hb st es).1.corn)
  | st, [] => by simp [eggPass]
  | st, e :: rest => by
      have ih := eggPass_proj hb (eggStep hb st e).1 rest
      have hs := eggStep_proj hb st e
      simp only [eggPass]
      exact ⟨⟨ih.1.1.trans hs.1, ih.1.2.1.trans hs.2.1, ih.1.2.2.1.trans hs.2.2.1,
              ih.1.2.2.2.trans hs.2.2.2.1⟩,
             fun hc => ih.2 (hs.2.2.2.2 hc)⟩

/-! ## Concrete sample entities for witnesses -/

/-- Nominal world bounds for a 1280x720 canvas: `floorY = floor(720*0.78)`,
`leftBound = floor(1280*0.08)`, `rightBound = floor(1280*0.62)`, with the
gravity and jump-velocity constants of game.js lines 356-363. -/
def world0 : World where
  floorY := 561
  leftBound := 102
  rightBound := 793
  gravity := 2400
  jumpVel := -760
  plateauLift := 96

/-- A sample obstacle of the `block` type (46x34) sitting on the lane. -/
def oSample : Obstacle := { id := 1, x := 120, y := 500, w := 46, h := 34 }

/-- A sample vulnerable player overlapping `oSample` front-on. -/
def pSample : Player where
  x := 100
  y := 480
  vx := 0
  vy := 0
  w := 54
  h := 44
  onGround := false
  jumpBuffered := 0
  coyote := 0
  invuln := 0
  ground := none
  drop := 0
  flyHold := 0

/-- The initial state switched to playing mode (as `startGame` does). -/
def stPlaying : GameState := { initState with mode := Mode.playing }

/-- A playing state whose active heart is down to 10 health. -/
def stLow : GameState := { stPlaying with hearts := [10, 100] }

/-! ## Claim theorems -/

/-- C3: the bounds "every heart's health in [0,100], corn ≥ 0, active heart
index in [0, heartsMax)" hold in the initial state and at run reset, and are
preserved by damage application (`hurt`), pickup collection and hazard
collection. -/
theorem invariants_preserved (w : World) (st st2 : GameState) (p : Player) (o : Obstacle)
    (amount : ℚ) (hb : Rect) (ps : List Pickup) (es : List Egg)
    (hInv : Inv st) (ham : 0 ≤ amount)
    (h2max : st2.heartsMax = 2) (h2len : st2.hearts.length = 2) :
    Inv initState ∧ Inv (resetRunState st2) ∧
    Inv (hurt w st p o amount).1 ∧
    Inv (pickupPass hb st ps).1 ∧
    Inv (eggPass hb st es).1 := by
  obtain ⟨hbd, hc, hix, hlen⟩ := hInv
  refine ⟨?_, ?_, hurt_inv w st p o amount ⟨hbd, hc, hix, hlen⟩ ham, ?_, ?_⟩
  · refine ⟨?_, by norm_num [initState], by norm_num [initState], by norm_num [initState]⟩
    intro x hx
    simp only [initState, List.mem_cons, List.not_mem_nil, or_false] at hx
    rcases hx with rfl | rfl <;> norm_num
  · unfold Inv resetRunState
    simp only
    rw [set_set_pair st2.hearts h2len]
    refine ⟨?_, by norm_num, by omega, by simp [h2max]⟩
    intro x hx
    simp only [List.mem_cons, List.not_mem_nil, or_false] at hx
    rcases hx with rfl | rfl <;> norm_num
  · rw [pickupPass_fst]
    exact ⟨hbd, add_nonneg hc (Int.natCast_nonneg _), hix, hlen⟩
  · obtain ⟨⟨hm, hh, hi2, hx2⟩, hcp⟩ := eggPass_proj hb st es
    exact ⟨by rw [hh]; exact hbd, hcp hc, by rw [hi2, hx2]; exact hix,
           by rw [hh, hx2]; exact hlen⟩

/-- Witness for C3 at the initial playing state with a 12-damage hit, an
empty pickup list and an empty egg list. -/
theorem invariants_preserved_witness :
    Inv stPlaying ∧ (0 : ℚ) ≤ 12 ∧
    Inv (hurt world0 stPlaying pSample oSample 12).1 ∧
    Inv (pickupPass (hitbox pSample) stPlaying []).1 ∧
    Inv (eggPass (hitbox pSample) stPlaying []).1 := by
  have hInv : Inv stPlaying := by
    refine ⟨?_, by norm_num [stPlaying, initState], by norm_num [stPlaying, initState],
            by norm_num [stPlaying, initState]⟩
    intro x hx
    simp only [stPlaying, initState, List.mem_cons, List.not_mem_nil, or_false] at hx
    rcases hx with rfl | rfl <;> norm_num
  have h := invariants_preserved world0 stPlaying stPlaying pSample oSample 12
    (hitbox pSample) [] [] hInv (by norm_num)
    (by norm_num [stPlaying, initState]) (by norm_num [stPlaying, initState])
  exact ⟨hInv, by norm_num, h.2.2.1, h.2.2.2.1, h.2.2.2.2⟩

/-- C4: if a damage application empties the active heart and it is not the
last one, the spent heart stays at 0, the index advances by one, the new
heart is refilled to 100, heartsMax and the mode are unchanged; on the last
heart the mode becomes gameover and the best score becomes
`max best ⌊score⌋`. -/
theorem heart_transition (w : World) (st : GameState) (p : Player) (o : Obstacle) (amount : ℚ)
    (hmode : st.mode = Mode.playing) (hinv : p.invuln ≤ 0)
    (hlen : st.hearts.length = st.heartsMax)
    (hzero : lget st.hearts st.heartIndex ≤ amount) :
    (st.heartIndex < st.heartsMax - 1 →
      lget (hurt w st p o amount).1.hearts st.heartIndex = 0 ∧
      (hurt w st p o amount).1.heartIndex = st.heartIndex + 1 ∧
      lget (hurt w st p o amount).1.hearts (st.heartIndex + 1) = 100 ∧
      (hurt w st p o amount).1.heartsMax = st.heartsMax ∧
      (hurt w st p o amount).1.mode = st.mode) ∧
    (st.heartsMax - 1 ≤ st.heartIndex →
      (hurt w st p o amount).1.mode = Mode.gameover ∧
      (hurt w st p o amount).1.best = max st.best ((⌊st.score⌋ : ℤ) : ℚ)) := by
  have hnm : ¬(st.mode ≠ Mode.playing) := by simp [hmode]
  have hni : ¬(p.invuln > 0) := not_lt.mpr hinv
  unfold hurt
  rw [if_neg hnm, if_neg hni]
  simp only
  have hlz : lget (st.hearts.set st.heartIndex
      (max 0 (lget st.hearts st.heartIndex - amount))) st.heartIndex ≤ 0 := by
    by_cases hidx : st.heartIndex < st.hearts.length
    · rw [lget_set_self _ _ _ hidx]
      exact max_le le_rfl (by linarith)
    · unfold lget
      rw [List.getD_eq_default _ _ (by simpa using le_of_not_lt hidx)]
  rw [if_pos hlz]
  constructor
  · intro hadv
    rw [if_pos hadv]
    have hidx : st.heartIndex < st.hearts.length := by omega
    have hidx1 : st.heartIndex + 1 <
        ((st.hearts.set st.heartIndex
          (max 0 (lget st.hearts st.heartIndex - amount))).set st.heartIndex 0).length := by
      simpa using (by omega : st.heartIndex + 1 < st.hearts.length)
    refine ⟨?_, rfl, ?_, rfl, hmode.symm ▸ rfl⟩
    · rw [lget_set_ne _ _ _ _ (by omega : st.heartIndex + 1 ≠ st.heartIndex),
        lget_set_self _ _ _ (by simpa using hidx)]
    · rw [lget_set_self _ _ _ hidx1]
  · intro hlast
    rw [if_neg (by omega)]
    exact ⟨rfl, rfl⟩

/-- Witness for C4: a 12-damage hit on a 10-health first heart of two. -/
theorem heart_transition_witness :
    stLow.mode = Mode.playing ∧ pSample.invuln ≤ 0 ∧
    stLow.hearts.length = stLow.heartsMax ∧
    lget stLow.hearts stLow.heartIndex ≤ 12 ∧ stLow.heartIndex < stLow.heartsMax - 1 ∧
    lget (hurt world0 stLow pSample oSample 12).1.hearts 0 = 0 ∧
    (hurt world0 stLow pSample oSample 12).1.heartIndex = 1 ∧
    lget (hurt world0 stLow pSample oSample 12).1.hearts 1 = 100 ∧
    (hurt world0 stLow pSample oSample 12).1.heartsMax = 2 := by
  have h := heart_transition world0 stLow pSample oSample 12 rfl
    (by norm_num [pSample])
    (by norm_num [stLow, stPlaying, initState])
    (by norm_num [lget, stLow, stPlaying, initState])
  have h2 := h.1 (by norm_num [stLow, stPlaying, initState])
  refine ⟨rfl, by norm_num [pSample], by norm_num [stLow, stPlaying, initState],
    by norm_num [lget, stLow, stPlaying, initState],
    by norm_num [stLow, stPlaying, initState], h2.1, h2.2.1, h2.2.2.1, ?_⟩
  rw [h2.2.2.2.1]
  norm_num [stLow, stPlaying, initState]

/-- C6: calling `hurt` while the invulnerability timer is positive, or while
the mode is not playing, changes nothing at all: the entire state and player
records are returned unmodified. -/
theorem hurt_noop_when_invulnerable (w : World) (st : GameState) (p : Player) (o : Obstacle)
    (amount : ℚ) (h : 0 < p.invuln ∨ st.mode ≠ Mode.playing) :
    hurt w st p o amount = (st, p) := by
  unfold hurt
  rcases h with h | h
  · by_cases hm : st.mode ≠ Mode.playing
    · rw [if_pos hm]
    · rw [if_neg hm, if_pos h]
  · rw [if_pos h]

/-- Witness for C6: an invulnerable player takes no damage from `hurt`. -/
theorem hurt_noop_when_invulnerable_witness :
    (0 : ℚ) < 1 ∧
    hurt world0 stPlaying { pSample with invuln := 1 } oSample 12 =
      (stPlaying, { pSample with invuln := 1 }) := by
  refine ⟨by norm_num, ?_⟩
  exact hurt_noop_when_invulnerable world0 stPlaying { pSample with invuln := 1 } oSample 12
    (Or.inl (by norm_num [pSample]))

/-- C7: a pass over a single untaken overlapping pickup of nonzero value v
marks it taken, adds exactly v to corn and 60*v to score and changes no other
state field; in general, a pickup pass adds the total collected value. -/
theorem pickup_collection (hb : Rect) (st : GameState) (p : Pickup) (ps : List Pickup)
    (hta : p.taken = false) (hov : aabbR hb (pickupBox p) = true) (hv : p.value ≠ 0) :
    ((pickupPass hb st [p]).1.corn = st.corn + (p.value : ℤ) ∧
     (pickupPass hb st [p]).1.score = st.score + 60 * (p.value : ℚ) ∧
     (pickupPass hb st [p]).2 = [{ p with taken := true }] ∧
     (pickupPass hb st [p]).1.mode = st.mode ∧
     (pickupPass hb st [p]).1.best = st.best ∧
     (pickupPass hb st [p]).1.hearts = st.hearts ∧
     (pickupPass hb st [p]).1.heartIndex = st.heartIndex ∧
     (pickupPass hb st [p]).1.heartsMax = st.heartsMax ∧
     (pickupPass hb st [p]).1.heartsSmooth = st.heartsSmooth ∧
     (pickupPass hb st [p]).1.shake = st.shake ∧
     (pickupPass hb st [p]).1.flyFuel = st.flyFuel ∧
     (pickupPass hb st [p]).1.flyFuelMax = st.flyFuelMax ∧
     (pickupPass hb st [p]).1.flyRefuelDelay = st.flyRefuelDelay ∧
     (pickupPass hb st [p]).1.flyRefuelCd = st.flyRefuelCd ∧
     (pickupPass hb st [p]).1.speed = st.speed ∧
     (pickupPass hb st [p]).1.difficulty = st.difficulty) ∧
    (pickupPass hb st ps).1.corn = st.corn + (collectedValue hb ps : ℤ) := by
  have hhit : pickupHit hb p = true := by simp [pickupHit, hta, hov]
  have hcv : collectValue p.value = p.value := by simp [collectValue, hv]
  have hc1 : collectedValue hb [p] = p.value := by
    simp [collectedValue, hhit, hcv]
  constructor
  · rw [pickupPass_fst hb st [p], pickupPass_taken hb st [p], hc1]
    refine ⟨rfl, rfl, ?_, rfl, rfl, rfl, rfl, rfl, rfl, rfl, rfl, rfl, rfl, rfl, rfl, rfl⟩
    simp [hhit]
  · rw [pickupPass_fst hb st ps]

/-- Witness for C7: collecting a value-1 corn gives +1 corn and +60 score;
collecting a value-3 giant corn gives +3 corn and +180 score. -/
theorem pickup_collection_witness :
    ((pickupPass (hitbox pSample) stPlaying
        [{ x := 120, y := 500, r := 15, taken := false, value := 1 }]).1.corn =
      stPlaying.corn + 1 ∧
     (pickupPass (hitbox pSample) stPlaying
        [{ x := 120, y := 500, r := 15, taken := false, value := 1 }]).1.score =
      stPlaying.score + 60) ∧
    ((pickupPass (hitbox pSample) stPlaying
        [{ x := 120, y := 500, r := 22, taken := false, value := 3 }]).1.corn =
      stPlaying.corn + 3 ∧
     (pickupPass (hitbox pSample) stPlaying
        [{ x := 120, y := 500, r := 22, taken := false, value := 3 }]).1.score =
      stPlaying.score + 180) := by
  have h1 := (pickup_collection (hitbox pSample) stPlaying
    { x := 120, y := 500, r := 15, taken := false, value := 1 } [] rfl
    (by norm_num [aabbR, aabb, pickupBox, hitbox, pSample]) (by norm_num)).1
  have h3 := (pickup_collection (hitbox pSample) stPlaying
    { x := 120, y := 500, r := 22, taken := false, value := 3 } [] rfl
    (by norm_num [aabbR, aabb, pickupBox, hitbox, pSample]) (by norm_num)).1
  refine ⟨⟨?_, ?_⟩, ⟨?_, ?_⟩⟩
  · rw [h1.1]; norm_num
  · rw [h1.2.1]; norm_num
  · rw [h3.1]; norm_num
  · rw [h3.2.1]; norm_num

/-! ## Spawner spacing theorems -/

theorem spawnIter_spawn_shape (w : World) (d speed playerW canvasW lastEnd : ℚ) (nid : ℕ)
    (s : Spawner) (r : SpawnRand)
    (hguard : ¬(s.runChunksLeft = 0 ∧ r.startRun = false)) :
    ∃ os,
      (spawnIter w d speed playerW canvasW (some lastEnd) nid s r).2 =
        ({ id := nid
           x := max (canvasW + r.x1Jitter)
             (lastEnd + if (if s.runChunksLeft = 0 then false else s.needLanding) = true
               then landingSpacingPx w playerW d speed else minSpacingPx d)
           y := w.floorY - r.oh1
           w := r.ow1
           h := r.oh1 } : Obstacle) :: os ∧
      ((spawnIter w d speed playerW canvasW (some lastEnd) nid s r).1.needLanding = true ↔
        0 < (if s.runChunksLeft = 0 then r.runChunks else s.runChunksLeft) - 1) := by
  simp only [spawnIter]
  rw [if_neg hguard]
  by_cases h0 : s.runChunksLeft = 0 <;>
    simp only [h0, if_true, if_false, ite_true, ite_false, reduceIte] <;>
    (repeat' split) <;>
    exact ⟨_, rfl, by simp_all⟩

/-- C1 (amended): whenever the spawner owes a landing gap, the first obstacle
of the next chunk is placed at least
`speed * (2*|jumpVel|/gravity) + reactionPx` past the previous obstacle's
right end; at difficulty 0 with jump velocity -760, gravity 2400 and speed
360 this enforced spacing is at least (and in the worst case exactly)
228 + reaction buffer pixels. -/
theorem landing_gap_lower_bound (w : World) (d speed playerW canvasW lastEnd : ℚ)
    (nid : ℕ) (s : Spawner) (r : SpawnRand)
    (hneed : s.needLanding = true) (hrun : s.runChunksLeft ≠ 0)
    (hd0 : 0 ≤ d) (hd1 : d ≤ 1) :
    ∃ o os, (spawnIter w d speed playerW canvasW (some lastEnd) nid s r).2 = o :: os ∧
      lastEnd + (jumpTravelPx w speed + reactionPx d) ≤ o.x ∧
      (w.jumpVel = -760 → w.gravity = 2400 → speed = 360 → d = 0 →
        jumpTravelPx w speed = 228 ∧ reactionPx d = 220 ∧
        lastEnd + (228 + reactionPx d) ≤ o.x) := by
  obtain ⟨os, h2, _⟩ := spawnIter_spawn_shape w d speed playerW canvasW lastEnd nid s r
    (fun hc => hrun hc.1)
  have hreq : (if (if s.runChunksLeft = 0 then false else s.needLanding) = true
      then landingSpacingPx w playerW d speed else minSpacingPx d) =
      landingSpacingPx w playerW d speed := by
    rw [if_neg hrun, hneed]
    simp
  rw [hreq] at h2
  refine ⟨_, os, h2, ?_, ?_⟩
  · exact le_trans (add_le_add_left (le_max_right _ _) lastEnd) (le_max_right _ _)
  · intro hjv hg hsp hd
    have hjt : jumpTravelPx w speed = 228 := by
      rw [jumpTravelPx, airTime, hjv, hg, hsp]
      norm_num
    have hre : reactionPx d = 220 := by
      rw [reactionPx, lerp, hd]
      norm_num
    refine ⟨hjt, hre, ?_⟩
    rw [← hjt]
    exact le_trans (add_le_add_left (le_max_right _ _) lastEnd) (le_max_right _ _)

/-- A concrete draw of the spawner randomness: start a run of one 1-obstacle
chunk of the `block` type, with every `rand` at the low end of its range. -/
def rLand : SpawnRand where
  startRun := true
  runChunks := 1
  chunkTwo := false
  x1Jitter := 40
  pairGap := 40
  ow1 := 46
  oh1 := 34
  ow2 := 46
  oh2 := 34
  cdIdle := 1
  idleExtra := false
  cdIdleExtra := 1
  cdMid := 3/10
  cdEnd := 1

/-- Witness for C1: a landing gap owed mid-run at difficulty 0 and speed 360. -/
theorem landing_gap_lower_bound_witness :
    (Spawner.mk 0 1 true).needLanding = true ∧ (Spawner.mk 0 1 true).runChunksLeft ≠ 0 ∧
    (0 : ℚ) ≤ 0 ∧ (0 : ℚ) ≤ 1 ∧
    ∃ o os, (spawnIter world0 0 360 54 1280 (some 2000) 5 (Spawner.mk 0 1 true) rLand).2
        = o :: os ∧ 2000 + (jumpTravelPx world0 360 + reactionPx 0) ≤ o.x ∧
        2000 + (228 + reactionPx 0) ≤ o.x := by
  refine ⟨rfl, by norm_num, le_rfl, by norm_num, ?_⟩
  obtain ⟨o, os, h1, h2, h3⟩ := landing_gap_lower_bound world0 0 360 54 1280 2000 5
    (Spawner.mk 0 1 true) rLand rfl (by norm_num) le_rfl (by norm_num)
  exact ⟨o, os, h1, h2, (h3 rfl rfl rfl rfl).2.2⟩

/-- C1 counterexample: at difficulty 0 and speed 360, when a landing gap is
owed the spawner enforces a spacing of exactly
`jumpTravelPx + reactionPx = 228 + 220 = 448` pixels (here: next obstacle at
x = 2448 after an obstacle ending at 2000), so the spacing does not strictly
exceed 228 pixels plus the reaction buffer — it equals it. -/
theorem landing_gap_not_strict :
    ((spawnIter world0 0 360 54 1280 (some 2000) 0 (Spawner.mk 0 1 true) rLand).2.map
        Obstacle.x).head? = some 2448 ∧
    jumpTravelPx world0 360 + reactionPx 0 = 448 ∧
    ¬(228 + reactionPx 0 < (2448 : ℚ) - 2000) := by
  obtain ⟨os, h2, _⟩ := spawnIter_spawn_shape world0 0 360 54 1280 2000 0
    (Spawner.mk 0 1 true) rLand (by norm_num [rLand])
  refine ⟨?_, ?_, ?_⟩
  · rw [h2]
    simp only [List.map_cons, List.head?_cons]
    norm_num [rLand, landingSpacingPx, minSpacingPx, jumpTravelPx, airTime, reactionPx,
      lerp, world0, max_def]
  · norm_num [jumpTravelPx, airTime, reactionPx, lerp, world0]
  · norm_num [reactionPx, lerp]

/-- C2 (amended): the landing gap is the spacing required before the next
chunk WITHIN a run — the landing-gap flag is armed exactly when the run just
spawned from still has chunks remaining — while a chunk that starts after a
completed run (or a break) is only required to keep the short minimum
spacing; the landing gap strictly exceeds that short spacing. -/
theorem run_spacing_rules (w : World) (d speed playerW canvasW lastEnd : ℚ)
    (nid : ℕ) (s : Spawner) (r : SpawnRand)
    (hd0 : 0 ≤ d) (hpw : playerW = 54)
    (hspawn : ¬(s.runChunksLeft = 0 ∧ r.startRun = false)) :
    ∃ o os, (spawnIter w d speed playerW canvasW (some lastEnd) nid s r).2 = o :: os ∧
      lastEnd + (if s.runChunksLeft ≠ 0 ∧ s.needLanding = true
                 then landingSpacingPx w playerW d speed else minSpacingPx d) ≤ o.x ∧
      ((spawnIter w d speed playerW canvasW (some lastEnd) nid s r).1.needLanding = true ↔
        0 < (if s.runChunksLeft = 0 then r.runChunks else s.runChunksLeft) - 1) ∧
      minSpacingPx d < landingSpacingPx w playerW d speed := by
  subst hpw
  obtain ⟨os, h2, hnl⟩ := spawnIter_spawn_shape w d speed 54 canvasW lastEnd nid s r hspawn
  have hif : (if (if s.runChunksLeft = 0 then false else s.needLanding) = true
      then landingSpacingPx w 54 d speed else minSpacingPx d) =
      (if s.runChunksLeft ≠ 0 ∧ s.needLanding = true
      then landingSpacingPx w 54 d speed else minSpacingPx d) := by
    by_cases h0 : s.runChunksLeft = 0
    · simp [h0]
    · by_cases hn : s.needLanding = true <;> simp [h0, hn]
  rw [hif] at h2
  refine ⟨_, os, h2, le_max_right _ _, hnl, ?_⟩
  have hms : minSpacingPx d ≤ 240 := by
    unfold minSpacingPx lerp
    linarith
  have hls : (254 : ℚ) ≤ landingSpacingPx w 54 d speed := by
    calc (254 : ℚ) = 54 + 200 := by norm_num
      _ ≤ _ := le_max_left _ _
  linarith

/-- The spawner state during a break: no run active, no landing gap owed. -/
def sBreak : Spawner := ⟨0, 0, false⟩

/-- A concrete draw starting a run of two 1-obstacle chunks. -/
def rTwo : SpawnRand := { rLand with runChunks := 2 }

/-- Witness for C2: starting a 2-chunk run after a break at difficulty 0. -/
theorem run_spacing_rules_witness :
    (0 : ℚ) ≤ 0 ∧ ¬(sBreak.runChunksLeft = 0 ∧ rTwo.startRun = false) ∧
    ∃ o os, (spawnIter world0 0 360 54 1280 (some 2000) 0 sBreak rTwo).2 = o :: os ∧
      2000 + minSpacingPx 0 ≤ o.x ∧
      ((spawnIter world0 0 360 54 1280 (some 2000) 0 sBreak rTwo).1.needLanding = true ↔
        0 < rTwo.runChunks - 1) ∧
      minSpacingPx 0 < landingSpacingPx world0 54 0 360 := by
  refine ⟨le_rfl, by norm_num [sBreak, rTwo, rLand], ?_⟩
  obtain ⟨o, os, h1, h2, h3, h4⟩ := run_spacing_rules world0 0 360 54 1280 2000 0 sBreak rTwo
    le_rfl rfl (by norm_num [sBreak, rTwo, rLand])
  refine ⟨o, os, h1, ?_, ?_, h4⟩
  · simpa [sBreak] using h2
  · simpa [sBreak] using h3

/-- C2 counterexample: the claim has the two spacings swapped. Starting a
2-chunk run right after a break, the first chunk is enforced only the short
240px minimum spacing from the previous run's last obstacle (ending at 2000:
it spawns at 2240, less than a 448px landing gap away), and the spawner then
owes a landing gap, so the second chunk of the SAME run is forced 448px past
the first (at 2734 after a chunk ending at 2286), more than the short
spacing. -/
theorem run_spacing_inverted :
    ((spawnIter world0 0 360 54 1280 (some 2000) 0 sBreak rTwo).2.map
        Obstacle.x).head? = some 2240 ∧
    (spawnIter world0 0 360 54 1280 (some 2000) 0 sBreak rTwo).1.needLanding = true ∧
    minSpacingPx 0 = 240 ∧ landingSpacingPx world0 54 0 360 = 448 ∧
    ¬(landingSpacingPx world0 54 0 360 ≤ (2240 : ℚ) - 2000) ∧
    ((spawnIter world0 0 360 54 1280 (some 2286) 1
        (Spawner.mk (3/10) 1 true) rTwo).2.map Obstacle.x).head? = some 2734 ∧
    ¬((2734 : ℚ) - 2286 ≤ minSpacingPx 0) := by
  obtain ⟨os1, ha, hb⟩ := spawnIter_spawn_shape world0 0 360 54 1280 2000 0 sBreak rTwo
    (by norm_num [sBreak, rTwo, rLand])
  obtain ⟨os2, hc, _⟩ := spawnIter_spawn_shape world0 0 360 54 1280 2286 1
    (Spawner.mk (3/10) 1 true) rTwo (by norm_num [rTwo, rLand])
  refine ⟨?_, ?_, ?_, ?_, ?_, ?_, ?_⟩
  · rw [ha]
    simp only [List.map_cons, List.head?_cons]
    norm_num [sBreak, rTwo, rLand, landingSpacingPx, minSpacingPx, jumpTravelPx,
      airTime, reactionPx, lerp, world0, max_def]
  · exact hb.mpr (by norm_num [sBreak, rTwo, rLand])
  · norm_num [minSpacingPx, lerp]
  · norm_num [landingSpacingPx, jumpTravelPx, airTime, reactionPx, lerp, world0, max_def]
  · norm_num [landingSpacingPx, jumpTravelPx, airTime, reactionPx, lerp, world0, max_def]
  · rw [hc]
    simp only [List.map_cons, List.head?_cons]
    norm_num [rTwo, rLand, landingSpacingPx, minSpacingPx, jumpTravelPx,
      airTime, reactionPx, lerp, world0, max_def]
  · norm_num [minSpacingPx, lerp]

/-- C5: the damage pass applies `hurt` to at most the first qualifying
obstacle; qualification requires not using that obstacle as ground support,
the hitbox bottom strictly below the obstacle top (+4px tolerance), and a
front-on impact; invulnerability makes the whole pass a no-op; and a landing
hit on a 100-health heart leaves 88 health, starts a positive invulnerability
window and points the horizontal velocity away from the obstacle. -/
theorem front_damage_rules (w : World) (st : GameState) (p : Player) (obs : List Obstacle) :
    (damagePass w st p obs = (st, p) ∨
      ∃ o, o ∈ obs ∧ hitQualifies p o = true ∧
        damagePass w st p obs = hurt w st p o 12) ∧
    (∀ o, hitQualifies p o = true →
      ¬(p.ground = some (Ground.obs o.id) ∧ p.onGround = true) ∧
      o.y + 4 < (hitbox p).y + (hitbox p).h ∧
      p.x + p.w * (1/2) ≤ o.x + o.w * (1/2)) ∧
    (0 < p.invuln → damagePass w st p obs = (st, p)) ∧
    (∀ o, st.mode = Mode.playing → p.invuln ≤ 0 →
      lget st.hearts st.heartIndex = 100 → st.heartIndex < st.hearts.length →
      lget (hurt w st p o 12).1.hearts st.heartIndex = 88 ∧
      0 < (hurt w st p o 12).2.invuln ∧
      ((hurt w st p o 12).2.vx = 320 ∨ (hurt w st p o 12).2.vx = -320) ∧
      (p.x + p.w * (1/2) < o.x + o.w * (1/2) → (hurt w st p o 12).2.vx = -320)) := by
  refine ⟨?_, ?_, ?_, ?_⟩
  · unfold damagePass
    cases hf : obs.find? (fun o => hitQualifies p o) with
    | none => exact Or.inl rfl
    | some o =>
        exact Or.inr ⟨o, List.mem_of_find?_eq_some hf, by simpa using List.find?_some hf, rfl⟩
  · intro o h
    simp only [hitQualifies, Bool.and_eq_true, Bool.not_eq_true', Bool.and_eq_false_iff,
      decide_eq_true_eq, decide_eq_false_iff_not, beq_eq_false_iff_ne, ne_eq] at h
    obtain ⟨⟨⟨_, hgr⟩, htop⟩, hfr⟩ := h
    refine ⟨?_, by simpa [hitbox] using lt_of_not_le htop, hfr⟩
    rcases hgr with hgr | hgr
    · exact fun hc => hgr hc.1
    · exact fun hc => by simp [hc.2] at hgr
  · intro hinv
    unfold damagePass
    cases hf : obs.find? (fun o => hitQualifies p o) with
    | none => rfl
    | some o =>
        show hurt w st p o 12 = (st, p)
        unfold hurt
        by_cases hm : st.mode ≠ Mode.playing
        · rw [if_pos hm]
        · rw [if_neg hm, if_pos hinv]
  · intro o hmode hinv hh hidx
    have hnm : ¬(st.mode ≠ Mode.playing) := by simp [hmode]
    have hni : ¬(p.invuln > 0) := not_lt.mpr hinv
    unfold hurt
    rw [if_neg hnm, if_neg hni]
    simp only
    have h88 : lget (st.hearts.set st.heartIndex
        (max 0 (lget st.hearts st.heartIndex - 12))) st.heartIndex = 88 := by
      rw [lget_set_self _ _ _ hidx, hh]
      norm_num
    have hcond : ¬(lget (st.hearts.set st.heartIndex
        (max 0 (lget st.hearts st.heartIndex - 12))) st.heartIndex ≤ 0) := by
      rw [h88]
      norm_num
    rw [if_neg hcond]
    refine ⟨h88, by norm_num, ?_, ?_⟩
    · by_cases hd : p.x + p.w * (1/2) < o.x + o.w * (1/2)
      · right
        simp only [if_pos hd]
        norm_num
      · left
        simp only [if_neg hd]
        norm_num
    · intro hd
      simp only [if_pos hd]
      norm_num

/-- Witness for C5: the sample vulnerable player hits the sample obstacle
front-on and ends at 88 health with a knockback to the left. -/
theorem front_damage_rules_witness :
    hitQualifies pSample oSample = true ∧ stPlaying.mode = Mode.playing ∧
    pSample.invuln ≤ 0 ∧ lget stPlaying.hearts stPlaying.heartIndex = 100 ∧
    lget (hurt world0 stPlaying pSample oSample 12).1.hearts 0 = 88 ∧
    0 < (hurt world0 stPlaying pSample oSample 12).2.invuln ∧
    (hurt world0 stPlaying pSample oSample 12).2.vx = -320 := by
  have h := front_damage_rules world0 stPlaying pSample [oSample]
  have h4 := h.2.2.2 oSample rfl (by norm_num [pSample])
    (by norm_num [lget, stPlaying, initState])
    (by norm_num [stPlaying, initState])
  refine ⟨?_, rfl, by norm_num [pSample], by norm_num [lget, stPlaying, initState],
    h4.1, h4.2.1, h4.2.2.2 (by norm_num [pSample, oSample])⟩
  simp only [hitQualifies, aabbR, aabb, hitbox, pSample, oSample]
  norm_num

/-- C8: flight engages exactly when jump is held, the player is airborne, the
hold timer is past 0.14s and fuel is positive; an engaged tick drains
`min(fuel, dt)` fuel (1 unit per second of game time, floored at 0) and
re-arms the refuel cooldown to its full delay; and the refuel step changes
fuel only by refilling it to max, which requires being grounded with the
cooldown elapsed. -/
theorem flight_fuel_rules (dt : ℚ) (jump : Bool) (st : GameState) (p : Player) :
    (isFlying jump st p = true ↔
      jump = true ∧ p.onGround = false ∧ 14/100 < p.flyHold ∧ 0 < st.flyFuel) ∧
    (0 ≤ dt → isFlying jump st p = true →
      st.flyFuel - (flightFuelStep dt jump st p).flyFuel = min st.flyFuel dt ∧
      0 ≤ (flightFuelStep dt jump st p).flyFuel ∧
      (flightFuelStep dt jump st p).flyRefuelCd = st.flyRefuelDelay) ∧
    ((refuelStep dt st p).flyFuel ≠ st.flyFuel →
      p.onGround = true ∧ (refuelStep dt st p).flyFuel = st.flyFuelMax ∧
      st.flyRefuelCd - dt ≤ 0 ∧ st.flyFuel < st.flyFuelMax) := by
  refine ⟨?_, ?_, ?_⟩
  · constructor
    · intro h
      unfold isFlying at h
      simp only [Bool.and_eq_true, Bool.not_eq_true', decide_eq_true_eq] at h
      exact ⟨h.1.1.1, h.1.1.2, h.1.2, h.2⟩
    · rintro ⟨h1, h2, h3, h4⟩
      unfold isFlying
      simp only [Bool.and_eq_true, Bool.not_eq_true', decide_eq_true_eq]
      exact ⟨⟨⟨h1, h2⟩, h3⟩, h4⟩
  · intro hdt hfly
    have hfuel : 0 < st.flyFuel := by
      unfold isFlying at hfly
      simp only [Bool.and_eq_true, decide_eq_true_eq] at hfly
      exact hfly.2
    unfold flightFuelStep
    rw [if_pos hfly]
    refine ⟨?_, le_max_left 0 _, rfl⟩
    rcases le_total dt st.flyFuel with h | h
    · rw [max_eq_right (by linarith), min_eq_right h]
      ring
    · rw [max_eq_left (by linarith), min_eq_left h]
      ring
  · intro hne
    unfold refuelStep at hne ⊢
    by_cases h1 : st.flyFuel < st.flyFuelMax
    · rw [if_pos h1] at hne ⊢
      by_cases h2 : p.onGround = true
      · rw [if_pos h2] at hne ⊢
        by_cases h3 : max 0 (st.flyRefuelCd - dt) ≤ 0
        · rw [if_pos h3] at hne ⊢
          exact ⟨h2, rfl, le_trans (le_max_right 0 _) h3, h1⟩
        · rw [if_neg h3] at hne
          exact absurd rfl hne
      · rw [if_neg h2] at hne
        exact absurd rfl hne
    · rw [if_neg h1] at hne
      exact absurd rfl hne

/-- Witness for C8: an airborne player holding jump with full fuel burns
1/60 fuel in a 1/60s tick; a grounded player with elapsed cooldown and
partial fuel refills to max. -/
theorem flight_fuel_rules_witness :
    isFlying true stPlaying { pSample with flyHold := 1/2 } = true ∧
    (0 : ℚ) ≤ 1/60 ∧
    stPlaying.flyFuel -
      (flightFuelStep (1/60) true stPlaying { pSample with flyHold := 1/2 }).flyFuel
        = min stPlaying.flyFuel (1/60) ∧
    (flightFuelStep (1/60) true stPlaying { pSample with flyHold := 1/2 }).flyRefuelCd
      = stPlaying.flyRefuelDelay ∧
    ((refuelStep (1/60) { stPlaying with flyFuel := 2 }
        { pSample with onGround := true }).flyFuel ≠
      ({ stPlaying with flyFuel := 2 } : GameState).flyFuel →
      ({ pSample with onGround := true } : Player).onGround = true ∧
      (refuelStep (1/60) { stPlaying with flyFuel := 2 }
        { pSample with onGround := true }).flyFuel =
        ({ stPlaying with flyFuel := 2 } : GameState).flyFuelMax) := by
  have hfly : isFlying true stPlaying { pSample with flyHold := 1/2 } = true := by
    have h := (flight_fuel_rules (1/60) true stPlaying { pSample with flyHold := 1/2 }).1
    exact h.mpr ⟨rfl, by norm_num [pSample], by norm_num [pSample],
      by norm_num [stPlaying, initState]⟩
  have hdrain := (flight_fuel_rules (1/60) true stPlaying
    { pSample with flyHold := 1/2 }).2.1 (by norm_num) hfly
  have hrefuel := (flight_fuel_rules (1/60) true { stPlaying with flyFuel := 2 }
    { pSample with onGround := true }).2.2
  exact ⟨hfly, by norm_num, hdrain.1, hdrain.2.2,
    fun hne => ⟨(hrefuel hne).1, (hrefuel hne).2.1⟩⟩

/-- C9 (amended): holding down while grounded triggers drop-through exactly
when a supporting entity reference exists — a platform or an obstacle top,
but not the implicit floor — and the trigger arms the positive 0.35s drop
timer, clears the support reference and the grounded flag, and nudges the
player downward; while the drop timer is positive the platform landing pass
detects nothing, even if the player overlaps a platform. -/
theorem drop_through_rules (dt : ℚ) (down : Bool) (p : Player) (prevY : ℚ)
    (plats : List Platform) :
    ((down = true ∧ p.onGround = true ∧ p.ground.isSome = true) →
      (dropStep dt down p).drop = 35/100 ∧
      (0 : ℚ) < (dropStep dt down p).drop ∧
      (dropStep dt down p).ground = none ∧
      (dropStep dt down p).onGround = false ∧
      (dropStep dt down p).vy = max p.vy 120) ∧
    (¬(down = true ∧ p.onGround = true ∧ p.ground.isSome = true) →
      dropStep dt down p = { p with drop := max 0 (p.drop - dt) }) ∧
    (0 < p.drop → platformLandingPass prevY plats p = (p, false)) := by
  refine ⟨?_, ?_, ?_⟩
  · rintro ⟨h1, h2, h3⟩
    unfold dropStep
    rw [if_pos ⟨h1, h2, h3⟩]
    exact ⟨rfl, by norm_num, rfl, rfl, rfl⟩
  · intro h
    unfold dropStep
    rw [if_neg h]
  · intro h
    unfold platformLandingPass
    rw [if_neg (fun hc => absurd h (not_lt.mpr hc.2))]

/-- The sample player standing on a shelf platform with id 3. -/
def pShelf : Player := { pSample with onGround := true, ground := some (Ground.plat 3) }

/-- The sample player in the middle of a drop-through (timer just armed). -/
def pDropping : Player := { pSample with drop := 35/100 }

/-- Witness for C9: dropping from a platform-supported grounded player, and
the landing pass ignoring a platform while the timer runs. -/
theorem drop_through_rules_witness :
    (true = true ∧ pShelf.onGround = true ∧ pShelf.ground.isSome = true) ∧
    (dropStep (1/60) true pShelf).drop = 35/100 ∧
    (dropStep (1/60) true pShelf).ground = none ∧
    (dropStep (1/60) true pShelf).onGround = false ∧
    (0 : ℚ) < pDropping.drop ∧
    platformLandingPass 430 [⟨3, 90, 500, 200, 18⟩] pDropping = (pDropping, false) := by
  have hcond : (true = true ∧ pShelf.onGround = true ∧ pShelf.ground.isSome = true) :=
    ⟨rfl, rfl, rfl⟩
  have h := (drop_through_rules (1/60) true pShelf 430 [⟨3, 90, 500, 200, 18⟩]).1 hcond
  have h2 := (drop_through_rules (1/60) true pDropping 430
    [⟨3, 90, 500, 200, 18⟩]).2.2 (by norm_num [pDropping, pSample])
  exact ⟨hcond, h.1, h.2.2.1, h.2.2.2.1, by norm_num [pDropping, pSample], h2⟩

/-- A sample obstacle the drop-through counterexample lands on. -/
def oD : Obstacle := { id := 7, x := 90, y := 500, w := 46, h := 34 }

/-- A sample player falling onto `oD`'s top surface. -/
def pD : Player where
  x := 100
  y := 460
  vx := 0
  vy := 300
  w := 54
  h := 44
  onGround := false
  jumpBuffered := 0
  coyote := 0
  invuln := 0
  ground := none
  drop := 0
  flyHold := 0

/-- C9 counterexample: a player standing on an obstacle top (not a platform)
still triggers drop-through when down is held — the code only checks that
*some* support reference exists, so the claim's "platform only" trigger
condition is false. -/
theorem drop_through_on_obstacle :
    (obstacleLandingPass 430 [oD] pD).1.ground = some (Ground.obs 7) ∧
    (obstacleLandingPass 430 [oD] pD).1.onGround = true ∧
    (dropStep (1/60) true (obstacleLandingPass 430 [oD] pD).1).drop = 35/100 ∧
    (dropStep (1/60) true (obstacleLandingPass 430 [oD] pD).1).ground = none ∧
    (dropStep (1/60) true (obstacleLandingPass 430 [oD] pD).1).onGround = false := by
  have hq : (fun o => landsOn (430 + pD.h) (pD.y + pD.h) pD.x pD.w o.x o.y o.w) oD = true := by
    simp only [pD, oD, landsOn, Bool.and_eq_true, Bool.or_eq_false_iff,
      Bool.not_eq_true', decide_eq_true_eq, decide_eq_false_iff_not]
    norm_num
  have hfind : [oD].find? (fun o => landsOn (430 + pD.h) (pD.y + pD.h) pD.x pD.w o.x o.y o.w)
      = some oD := List.find?_cons_of_pos _ hq
  have hland : (obstacleLandingPass 430 [oD] pD).1 =
      { pD with y := oD.y - pD.h, vy := 0, onGround := true,
                ground := some (Ground.obs oD.id) } := by
    unfold obstacleLandingPass
    rw [if_pos (by norm_num [pD])]
    simp only [hfind]
  rw [hland]
  refine ⟨rfl, rfl, ?_, ?_, ?_⟩ <;>
    norm_num [dropStep, pD, oD]

/-- C10: `normalizeName` is total and always yields a non-empty name of at
most 14 characters: the whitespace-collapsed, trimmed input truncated to 14
characters, with the fixed fallback Nugget exactly when that is empty. -/
theorem normalizeName_total (v : List Char) :
    normalizeName v ≠ [] ∧ (normalizeName v).length ≤ 14 ∧
    ((jsTrim (collapseWs v)).take 14 = [] → normalizeName v = "Nugget".toList) := by
  unfold normalizeName
  by_cases h : ((jsTrim (collapseWs v)).take 14).isEmpty
  · rw [if_pos h]
    refine ⟨by decide, by decide, fun _ => rfl⟩
  · rw [if_neg h]
    refine ⟨?_, ?_, ?_⟩
    · intro hc
      exact h (by simp [hc])
    · rw [List.length_take]
      exact min_le_left _ _
    · intro hc
      exact absurd (by simp [hc]) h

/-- Witness for C10: an all-whitespace input falls back to Nugget. -/
theorem normalizeName_total_witness :
    (jsTrim (collapseWs "   ".toList)).take 14 = [] ∧
    normalizeName "   ".toList = "Nugget".toList ∧
    normalizeName "  chicken   hop  house run forever  ".toList ≠ [] ∧
    (normalizeName "  chicken   hop  house run forever  ".toList).length ≤ 14 := by
  have hws : (jsTrim (collapseWs "   ".toList)).take 14 = [] := by decide
  have h1 := normalizeName_total "   ".toList
  have h2 := normalizeName_total "  chicken   hop  house run forever  ".toList
  exact ⟨hws, h1.2.2 hws, h2.1, h2.2.1⟩

end ChickenHop
